import Mathlib

/-!
Verification development for the tensorflow_federated test-utility excerpt:
the `TracingExecutor` decorator (`executor_test_utils.py`), and the type /
computation serialization boundary exercised by `serialization_test.py`.

The serialization module itself (`serialization.py`) and the executor base
implementations are not part of the supplied sources; where a claim depends
on them, the corresponding definitions are modelled from the spec and are
marked as such in their doc comments.
-/

/-- Tensor element dtypes appearing in the test expectations
(`DT_INT32`, `DT_INT64`, `DT_STRING`, `DT_FLOAT`, `DT_BOOL`). -/
inductive DType where
| DT_INT32 : DType
| DT_INT64 : DType
| DT_STRING : DType
| DT_FLOAT : DType
| DT_BOOL : DType
deriving DecidableEq, Repr

mutual

/-- Modelled from the spec: the in-memory `Type` of
`tensorflow_federated.python.core.api.types` (absent from src/) — a tagged
recursive structure: tensor (dtype + shape, each dimension known or
undefined), sequence, named tuple (ordered fields, optionally named),
or function (optional parameter type, result type). -/
inductive Ty where
| tensor : DType → List (Option Nat) → Ty
| sequence : Ty → Ty
| tuple : TyElems → Ty
| fn : OptTy → Ty → Ty
deriving DecidableEq, Repr

/-- Ordered fields of a named-tuple type: each element carries an optional
name and a type. -/
inductive TyElems where
| nil : TyElems
| cons : Option String → Ty → TyElems → TyElems
deriving DecidableEq, Repr

/-- The optional parameter type of a function type. -/
inductive OptTy where
| noneT : OptTy
| someT : Ty → OptTy
deriving DecidableEq, Repr

end

mutual

/-- Modelled from the spec: the wire-format `Type` message (oneof variants
tensor / sequence / tuple / function); the tensor variant carries a dtype
enum and a dimension-size list of integers, `-1` meaning unknown. -/
inductive WireTy where
| tensor : DType → List Int → WireTy
| sequence : WireTy → WireTy
| tuple : WireTyElems → WireTy
| fn : OptWireTy → WireTy → WireTy
deriving DecidableEq, Repr

/-- Ordered elements of a wire tuple message: optional name plus value. -/
inductive WireTyElems where
| nil : WireTyElems
| cons : Option String → WireTy → WireTyElems → WireTyElems
deriving DecidableEq, Repr

/-- The optional parameter message of a wire function message. -/
inductive OptWireTy where
| noneW : OptWireTy
| someW : WireTy → OptWireTy
deriving DecidableEq, Repr

end

/-- Encoding of one shape dimension: a known size `n` is encoded as `n`,
an unknown/undefined dimension as `-1`. -/
def encodeDim : Option Nat → Int
| Option.none => -1
| Option.some n => Int.ofNat n

/-- Decoding of one wire dimension size: a negative size means unknown. -/
def decodeDim (i : Int) : Option Nat :=
if i < 0 then Option.none else Option.some i.toNat

mutual

/-- Modelled from the spec: `serialization.serialize_type` (absent from
src/) — structural, recursive encoding: a tensor leaf encodes dtype and a
shape with each dimension's size or `-1` for an undefined dimension; a
sequence encodes its element type; a named tuple encodes its ordered
(optional name, value) pairs exactly; a function encodes its optional
parameter type and its result type. -/
def serialize_type : Ty → WireTy
| Ty.tensor d s => WireTy.tensor d (s.map encodeDim)
| Ty.sequence e => WireTy.sequence (serialize_type e)
| Ty.tuple els => WireTy.tuple (serializeElems els)
| Ty.fn p r => WireTy.fn (serializeParam p) (serialize_type r)

/-- Serialization of the ordered elements of a named-tuple type. -/
def serializeElems : TyElems → WireTyElems
| TyElems.nil => WireTyElems.nil
| TyElems.cons n t rest => WireTyElems.cons n (serialize_type t) (serializeElems rest)

/-- Serialization of an optional parameter type. -/
def serializeParam : OptTy → OptWireTy
| OptTy.noneT => OptWireTy.noneW
| OptTy.someT t => OptWireTy.someW (serialize_type t)

end

mutual

/-- Modelled from the spec: `serialization.deserialize_type` (absent from
src/) — the structural inverse of `serialize_type`. -/
def deserialize_type : WireTy → Ty
| WireTy.tensor d s => Ty.tensor d (s.map decodeDim)
| WireTy.sequence e => Ty.sequence (deserialize_type e)
| WireTy.tuple els => Ty.tuple (deserializeElems els)
| WireTy.fn p r => Ty.fn (deserializeParam p) (deserialize_type r)

/-- Deserialization of the ordered elements of a wire tuple message. -/
def deserializeElems : WireTyElems → TyElems
| WireTyElems.nil => TyElems.nil
| WireTyElems.cons n t rest => TyElems.cons n (deserialize_type t) (deserializeElems rest)

/-- Deserialization of an optional wire parameter message. -/
def deserializeParam : OptWireTy → OptTy
| OptWireTy.noneW => OptTy.noneT
| OptWireTy.someW t => OptTy.someT (deserialize_type t)

end

/-- One target shape dimension accepts one source dimension: an undefined
target dimension accepts anything, a known target dimension only an equal
known source dimension. -/
def dimAssignableFrom : Option Nat → Option Nat → Bool
| Option.none, _ => true
| Option.some _, Option.none => false
| Option.some n, Option.some m => n = m

/-- A target shape accepts a source shape: same rank, dimensionwise
acceptance. -/
def shapeAssignableFrom : List (Option Nat) → List (Option Nat) → Bool
| [], [] => true
| [], _ :: _ => false
| _ :: _, [] => false
| d1 :: s1, d2 :: s2 => dimAssignableFrom d1 d2 && shapeAssignableFrom s1 s2

mutual

/-- Modelled from the spec: the `is_assignable_from` compatibility relation
on types (absent from src/) — structural, with width/shape subtyping on
tensor shapes and a contravariant parameter on function types. -/
def is_assignable_from : Ty → Ty → Bool
| Ty.tensor d1 s1, Ty.tensor d2 s2 => d1 = d2 && shapeAssignableFrom s1 s2
| Ty.sequence e1, Ty.sequence e2 => is_assignable_from e1 e2
| Ty.tuple els1, Ty.tuple els2 => elemsAssignableFrom els1 els2
| Ty.fn p1 r1, Ty.fn p2 r2 =>
  paramAssignableFrom p1 p2 && is_assignable_from r1 r2
| _, _ => false
termination_by t1 t2 => sizeOf t1 + sizeOf t2

/-- Elementwise assignability of named-tuple elements: same length, equal
names, elementwise assignable values. -/
def elemsAssignableFrom : TyElems → TyElems → Bool
| TyElems.nil, TyElems.nil => true
| TyElems.nil, TyElems.cons _ _ _ => false
| TyElems.cons _ _ _, TyElems.nil => false
| TyElems.cons n1 t1 r1, TyElems.cons n2 t2 r2 =>
  n1 = n2 && is_assignable_from t1 t2 && elemsAssignableFrom r1 r2
termination_by e1 e2 => sizeOf e1 + sizeOf e2

/-- Assignability of optional function parameters (contravariant: the
source parameter must accept the target parameter). -/
def paramAssignableFrom : OptTy → OptTy → Bool
| OptTy.noneT, OptTy.noneT => true
| OptTy.noneT, OptTy.someT _ => false
| OptTy.someT _, OptTy.noneT => false
| OptTy.someT t1, OptTy.someT t2 => is_assignable_from t2 t1
termination_by p1 p2 => sizeOf p1 + sizeOf p2

end

/-- A parameter/result binding of a backend tensorflow fragment
(`pb.TensorFlow.Binding`): a named tensor, a sequence iterator handle, or
a tuple of bindings. -/
inductive Binding where
| tensorB : String → Binding
| sequenceB : String → Binding
| tupleB : List Binding → Binding

/-- The `pb.TensorFlow` message: an opaque serialized graph plus an
optional parameter binding and a result binding. The graph bytes are
opaque to this layer and modelled as a number. -/
structure TensorFlowPb where
  graph_def : Nat
  parameter : Option Binding
  result : Binding

/-- The `pb.Computation` message restricted to the variant used by
`create_dummy_empty_tensorflow_computation`: a serialized type and an
optional tensorflow fragment. -/
structure ComputationPb where
  type : WireTy
  tensorflow : Option TensorFlowPb

/-- Modelled from the spec: `tensorflow_utils.capture_result_from_graph`
(absent from src/) applied to the empty structure `[]` — capturing an
empty result produces the empty named-tuple type together with an empty
tuple binding, as documented by the `( -> <>)` type signature in
`create_dummy_empty_tensorflow_computation`. -/
def capture_empty_result : Ty × Binding :=
  (Ty.tuple TyElems.nil, Binding.tupleB [])

/-- `create_dummy_empty_tensorflow_computation`: captures an empty result
from an empty graph, forms the function type with no parameter, serializes
it, and builds a `pb.Computation` whose tensorflow fragment has no
parameter binding (`parameter=None`). -/
def create_dummy_empty_tensorflow_computation : ComputationPb :=
  let result_type := capture_empty_result.1
  let result_binding := capture_empty_result.2
  let function_type := Ty.fn OptTy.noneT result_type
  let type_signature := serialize_type function_type
  { type := type_signature,
    tensorflow := Option.some
      { graph_def := 0, parameter := Option.none, result := result_binding } }

/-- One entry of the tracing executor's trace, mirroring the tuples
appended in `executor_test_utils.py`: the constructor encodes the
operation-name tag and the tuple arity. `V` is the type of raw values
passed to `create_value` and `R` the type of materialized results of
`compute`. -/
inductive TraceEntry (V R : Type) where
| create_value_untyped : V → Nat → TraceEntry V R
| create_value_typed : V → Ty → Nat → TraceEntry V R
| create_call_noarg : Nat → Nat → TraceEntry V R
| create_call_arg : Nat → Nat → Nat → TraceEntry V R
| create_tuple : List (Option String × Nat) → Nat → TraceEntry V R
| create_selection : Nat → Option (Sum Nat String) → Nat → TraceEntry V R
| compute : Nat → R → TraceEntry V R
deriving DecidableEq

/-- `TracingExecutorValue`: the owner-assigned integer index together with
the embedded value from the target executor. -/
structure TracingValue (T : Type) where
  index : Nat
  value : T
deriving DecidableEq

/-- The mutable state of a `TracingExecutor`: `_last_used_index`
(initially 0) and `_trace` (initially empty). -/
structure TracingState (V R : Type) where
  last_used_index : Nat
  trace : List (TraceEntry V R)
deriving DecidableEq

/-- `TracingExecutor.__init__`: the wrapper starts with
`_last_used_index = 0` and an empty trace. -/
def TracingState.initial (V R : Type) : TracingState V R := ⟨0, []⟩

/-- The target executor wrapped by a `TracingExecutor`, as a deterministic
state machine over an executor state `S`, producing embedded values of
type `T` and materialized results of type `R`. -/
structure TargetExecutor (V R T S : Type) where
  create_value : S → V → Option Ty → S × T
  create_call : S → T → Option T → S × T
  create_tuple : S → List (Option String × T) → S × T
  create_selection : S → T → Option Nat → Option String → S × T
  compute : S → T → S × R
  close : S → S

/-- `TracingExecutor._get_new_value_index`: returns
`_last_used_index + 1` and stores it back as the new `_last_used_index`. -/
def get_new_value_index {V R : Type} (s : TracingState V R) :
    TracingState V R × Nat :=
  (⟨s.last_used_index + 1, s.trace⟩, s.last_used_index + 1)

/-- The third component of the trace entry appended by
`TracingExecutor.create_selection`: `index if index is not None else
name`. -/
def selectorArg (index : Option Nat) (name : Option String) :
    Option (Sum Nat String) :=
  match index with
  | Option.some i => Option.some (Sum.inl i)
  | Option.none => name.map Sum.inr

namespace TracingExecutor

/-- `TracingExecutor.create_value`: delegates to the target, wraps the
target value with a fresh index, and appends a `create_value` entry that
includes `type_spec` exactly when one was supplied. -/
def create_value {V R T S : Type} (tgt : TargetExecutor V R T S) (s : S)
    (w : TracingState V R) (value : V) (type_spec : Option Ty) :
    S × TracingState V R × TracingValue T :=
  let st := tgt.create_value s value type_spec
  let iw := get_new_value_index w
  let wrapped : TracingValue T := ⟨iw.2, st.2⟩
  let entry : TraceEntry V R :=
    match type_spec with
    | Option.some ts => TraceEntry.create_value_typed value ts wrapped.index
    | Option.none => TraceEntry.create_value_untyped value wrapped.index
  (st.1, ⟨iw.1.last_used_index, iw.1.trace ++ [entry]⟩, wrapped)

/-- `TracingExecutor.create_call`: two branches as in the source — with an
argument it records `('create_call', comp.index, arg.index, out)`, without
one `('create_call', comp.index, out)`. -/
def create_call {V R T S : Type} (tgt : TargetExecutor V R T S) (s : S)
    (w : TracingState V R) (comp : TracingValue T)
    (arg : Option (TracingValue T)) :
    S × TracingState V R × TracingValue T :=
  match arg with
  | Option.some a =>
    let st := tgt.create_call s comp.value (Option.some a.value)
    let iw := get_new_value_index w
    let wrapped : TracingValue T := ⟨iw.2, st.2⟩
    (st.1, ⟨iw.1.last_used_index,
      iw.1.trace ++ [TraceEntry.create_call_arg comp.index a.index wrapped.index]⟩,
      wrapped)
  | Option.none =>
    let st := tgt.create_call s comp.value Option.none
    let iw := get_new_value_index w
    let wrapped : TracingValue T := ⟨iw.2, st.2⟩
    (st.1, ⟨iw.1.last_used_index,
      iw.1.trace ++ [TraceEntry.create_call_noarg comp.index wrapped.index]⟩,
      wrapped)

/-- `TracingExecutor.create_tuple`: delegates the elementwise unwrapped
values (names preserved), wraps the result, and records the elementwise
indices. -/
def create_tuple {V R T S : Type} (tgt : TargetExecutor V R T S) (s : S)
    (w : TracingState V R) (elements : List (Option String × TracingValue T)) :
    S × TracingState V R × TracingValue T :=
  let st := tgt.create_tuple s (elements.map fun p => (p.1, p.2.value))
  let iw := get_new_value_index w
  let wrapped : TracingValue T := ⟨iw.2, st.2⟩
  (st.1, ⟨iw.1.last_used_index,
    iw.1.trace ++
      [TraceEntry.create_tuple (elements.map fun p => (p.1, p.2.index)) wrapped.index]⟩,
    wrapped)

/-- `TracingExecutor.create_selection`: delegates with the given selectors
and records `('create_selection', source.index, index if index is not None
else name, out)`. -/
def create_selection {V R T S : Type} (tgt : TargetExecutor V R T S) (s : S)
    (w : TracingState V R) (source : TracingValue T) (index : Option Nat)
    (name : Option String) :
    S × TracingState V R × TracingValue T :=
  let st := tgt.create_selection s source.value index name
  let iw := get_new_value_index w
  let wrapped : TracingValue T := ⟨iw.2, st.2⟩
  (st.1, ⟨iw.1.last_used_index,
    iw.1.trace ++
      [TraceEntry.create_selection source.index (selectorArg index name) wrapped.index]⟩,
    wrapped)

/-- `TracingExecutor.close`: delegates to the target only; the wrapper's
own state is returned as is. -/
def close {V R T S : Type} (tgt : TargetExecutor V R T S) (s : S)
    (w : TracingState V R) : S × TracingState V R :=
  (tgt.close s, w)

end TracingExecutor

/-- `TracingExecutorValue.compute`: awaits the wrapped value's own
compute, then appends `('compute', index, result)` to the owner's trace,
and returns the result. -/
def TracingValue.compute {V R T S : Type} (tgt : TargetExecutor V R T S)
    (s : S) (w : TracingState V R) (v : TracingValue T) :
    S × TracingState V R × R :=
  let st := tgt.compute s v.value
  (st.1, ⟨w.last_used_index, w.trace ++ [TraceEntry.compute v.index st.2]⟩, st.2)

/-- A description of one operation issued through the tracing executor;
input handles are referred to by their position in the list of handles
created so far (position `j` denotes the `j`-th handle created through the
wrapper). -/
inductive OpDescr (V : Type) where
| opValue : V → Option Ty → OpDescr V
| opCall : Nat → Option Nat → OpDescr V
| opTuple : List (Option String × Nat) → OpDescr V
| opSelection : Nat → Option Nat → Option String → OpDescr V

/-- Resolution of a list of named handle references against the handles
created so far; fails if any reference is out of range. -/
def resolveElems {T : Type} (env : List (TracingValue T)) :
    List (Option String × Nat) → Option (List (Option String × TracingValue T))
| [] => Option.some []
| p :: rest =>
  match env[p.2]?, resolveElems env rest with
  | Option.some tv, Option.some rs => Option.some ((p.1, tv) :: rs)
  | _, _ => Option.none

/-- One step of a run through the tracing executor: resolves the
operation's handle references and issues the corresponding wrapper
operation; fails if a reference does not denote a created handle. -/
def step {V R T S : Type} (tgt : TargetExecutor V R T S) (s : S)
    (w : TracingState V R) (env : List (TracingValue T)) :
    OpDescr V → Option (S × TracingState V R × TracingValue T)
| OpDescr.opValue v ts => Option.some (TracingExecutor.create_value tgt s w v ts)
| OpDescr.opCall c a =>
  match env[c]?, a with
  | Option.some cv, Option.none =>
    Option.some (TracingExecutor.create_call tgt s w cv Option.none)
  | Option.some cv, Option.some j =>
    match env[j]? with
    | Option.some av =>
      Option.some (TracingExecutor.create_call tgt s w cv (Option.some av))
    | Option.none => Option.none
  | Option.none, _ => Option.none
| OpDescr.opTuple els =>
  match resolveElems env els with
  | Option.some rs => Option.some (TracingExecutor.create_tuple tgt s w rs)
  | Option.none => Option.none
| OpDescr.opSelection src i n =>
  match env[src]? with
  | Option.some sv =>
    Option.some (TracingExecutor.create_selection tgt s w sv i n)
  | Option.none => Option.none

/-- A run of a sequence of operations through the tracing executor,
accumulating the produced wrapped handles; fails if any operation's
references are invalid. -/
def runOps {V R T S : Type} (tgt : TargetExecutor V R T S) :
    List (OpDescr V) → S → TracingState V R → List (TracingValue T) →
    Option (S × TracingState V R × List (TracingValue T))
| [], s, w, env => Option.some (s, w, env)
| op :: ops, s, w, env =>
  match step tgt s w env op with
  | Option.some (s2, w2, tv) => runOps tgt ops s2 w2 (env ++ [tv])
  | Option.none => Option.none

/-- The trace entry the tracing executor records for one operation
description given the output index assigned to it; an input at position
`j` resolves to handle index `j + 1`. -/
def expectedEntry {V R : Type} : OpDescr V → Nat → TraceEntry V R
| OpDescr.opValue v Option.none, out => TraceEntry.create_value_untyped v out
| OpDescr.opValue v (Option.some ts), out => TraceEntry.create_value_typed v ts out
| OpDescr.opCall c Option.none, out => TraceEntry.create_call_noarg (c + 1) out
| OpDescr.opCall c (Option.some a), out => TraceEntry.create_call_arg (c + 1) (a + 1) out
| OpDescr.opTuple els, out =>
  TraceEntry.create_tuple (els.map fun p => (p.1, p.2 + 1)) out
| OpDescr.opSelection src i n, out =>
  TraceEntry.create_selection (src + 1) (selectorArg i n) out

/-- The exact list of trace entries a run of the given operations appends
when the executor has already assigned indices up to `base`. -/
def entriesFrom {V R : Type} (base : Nat) : List (OpDescr V) → List (TraceEntry V R)
| [] => []
| op :: ops => expectedEntry op (base + 1) :: entriesFrom (base + 1) ops

/-- Invariant tying the wrapper state to the handles created so far: the
last used index equals the number of created handles, and the `j`-th
created handle carries index `j + 1`. -/
def GoodEnv {V R T : Type} (w : TracingState V R) (env : List (TracingValue T)) : Prop :=
  w.last_used_index = env.length ∧
  ∀ j : Nat, ∀ tv : TracingValue T, env[j]? = Option.some tv → tv.index = j + 1

/-- A trivial concrete target executor over numbers, used to exercise the
tracing wrapper on concrete runs. -/
def dummyTarget : TargetExecutor Nat Nat Nat Nat :=
  { create_value := fun s _ _ => (s + 1, s),
    create_call := fun s _ _ => (s + 1, s),
    create_tuple := fun s _ => (s + 1, s),
    create_selection := fun s _ _ _ => (s + 1, s),
    compute := fun s t => (s, t),
    close := fun s => s }

/-- Modelled from the spec: the error kinds of the executor contract
(section 7 of the design). -/
inductive ExecError where
| TypeMismatchError : ExecError
| NotCallableError : ExecError
| ArityError : ExecError
| SelectionError : ExecError
| ForeignHandleError : ExecError
| ClosedExecutorError : ExecError
deriving DecidableEq

/-- Modelled from the spec: a value embedded in the contract executor — a
raw leaf carrying its type, a function value (optional parameter type,
result type), or a tuple of previously created handles with optional
names. -/
inductive EVal where
| leafV : Ty → EVal
| fnV : OptTy → Ty → EVal
| tupleV : List (Option String × Nat) → EVal
deriving DecidableEq

/-- Modelled from the spec: the state of the contract executor — a closed
flag and the store of embedded values; handles are store positions. -/
structure SpecExecutorState where
  closed : Bool
  store : List EVal
deriving DecidableEq

/-- Modelled from the spec: `create_value` of the executor contract
(implementations absent from src/) — fails with `ClosedExecutorError`
after close and with `TypeMismatchError` when a supplied `type_spec` does
not match the value's own type; otherwise embeds the value under a fresh
handle. -/
def spec_create_value (s : SpecExecutorState) (v : EVal) (type_spec : Option Ty) :
    Except ExecError (SpecExecutorState × Nat) :=
  if s.closed then Except.error ExecError.ClosedExecutorError
  else
    match type_spec, v with
    | Option.some ts, EVal.leafV t =>
      if ts = t then Except.ok (⟨false, s.store ++ [v]⟩, s.store.length)
      else Except.error ExecError.TypeMismatchError
    | _, _ => Except.ok (⟨false, s.store ++ [v]⟩, s.store.length)

/-- Modelled from the spec: `create_call` of the executor contract —
fails with `ClosedExecutorError` after close, `NotCallableError` on a
non-function handle, `ArityError` when the argument is required or
forbidden but omitted or supplied. -/
def spec_create_call (s : SpecExecutorState) (fn : Nat) (arg : Option Nat) :
    Except ExecError (SpecExecutorState × Nat) :=
  if s.closed then Except.error ExecError.ClosedExecutorError
  else
    match s.store[fn]? with
    | Option.none => Except.error ExecError.ForeignHandleError
    | Option.some (EVal.fnV p r) =>
      match p, arg with
      | OptTy.noneT, Option.none =>
        Except.ok (⟨false, s.store ++ [EVal.leafV r]⟩, s.store.length)
      | OptTy.someT _, Option.some _ =>
        Except.ok (⟨false, s.store ++ [EVal.leafV r]⟩, s.store.length)
      | _, _ => Except.error ExecError.ArityError
    | Option.some _ => Except.error ExecError.NotCallableError

/-- Modelled from the spec: `create_tuple` of the executor contract —
fails with `ClosedExecutorError` after close; otherwise embeds the ordered,
optionally named element handles as a tuple value. -/
def spec_create_tuple (s : SpecExecutorState)
    (elements : List (Option String × Nat)) :
    Except ExecError (SpecExecutorState × Nat) :=
  if s.closed then Except.error ExecError.ClosedExecutorError
  else if elements.all (fun p => p.2 < s.store.length) then
    Except.ok (⟨false, s.store ++ [EVal.tupleV elements]⟩, s.store.length)
  else Except.error ExecError.ForeignHandleError

/-- Position-free lookup of a tuple element by name: the handle of the
first element carrying the given name, if any. -/
def findByName (elems : List (Option String × Nat)) (n : String) : Option Nat :=
  (elems.find? (fun p => p.1 == Option.some n)).map Prod.snd

/-- Modelled from the spec: `create_selection` of the executor contract —
fails with `ClosedExecutorError` after close; exactly one of `index` and
`name` must be given, the source must be tuple-typed, and the position or
name must exist in it, otherwise the operation fails with
`SelectionError` (a dangling source handle is a `ForeignHandleError`). -/
def spec_create_selection (s : SpecExecutorState) (source : Nat)
    (index : Option Nat) (name : Option String) :
    Except ExecError (SpecExecutorState × Nat) :=
  if s.closed then Except.error ExecError.ClosedExecutorError
  else
    match index, name with
    | Option.some _, Option.some _ => Except.error ExecError.SelectionError
    | Option.none, Option.none => Except.error ExecError.SelectionError
    | Option.some i, Option.none =>
      match s.store[source]? with
      | Option.some (EVal.tupleV elems) =>
        match elems[i]? with
        | Option.some p => Except.ok (s, p.2)
        | Option.none => Except.error ExecError.SelectionError
      | Option.some _ => Except.error ExecError.SelectionError
      | Option.none => Except.error ExecError.ForeignHandleError
    | Option.none, Option.some n =>
      match s.store[source]? with
      | Option.some (EVal.tupleV elems) =>
        match findByName elems n with
        | Option.some h => Except.ok (s, h)
        | Option.none => Except.error ExecError.SelectionError
      | Option.some _ => Except.error ExecError.SelectionError
      | Option.none => Except.error ExecError.ForeignHandleError

/-- Modelled from the spec: `compute` on a handle of the contract
executor — fails with `ClosedExecutorError` after close; otherwise yields
the materialized value of the handle. -/
def spec_compute (s : SpecExecutorState) (h : Nat) : Except ExecError EVal :=
  if s.closed then Except.error ExecError.ClosedExecutorError
  else
    match s.store[h]? with
    | Option.some v => Except.ok v
    | Option.none => Except.error ExecError.ForeignHandleError

/-- Modelled from the spec: `close` of the executor contract — releases
all resources held by the executor and marks it closed; never fails. -/
def spec_close (_s : SpecExecutorState) : SpecExecutorState :=
  ⟨true, []⟩

theorem decodeDim_encodeDim (o : Option Nat) : decodeDim (encodeDim o) = o := by
cases o with
| none => rfl
| some n => simp [encodeDim, decodeDim, Int.ofNat]

mutual

theorem deserialize_serialize_ty (t : Ty) :
    deserialize_type (serialize_type t) = t := by
cases t with
| tensor d s =>
  simp only [serialize_type, deserialize_type, List.map_map]
  congr 1
  have h : (decodeDim ∘ encodeDim) = id := by
    funext o
    exact decodeDim_encodeDim o
  rw [h, List.map_id]
| sequence e =>
  simp only [serialize_type, deserialize_type]
  rw [deserialize_serialize_ty e]
| tuple els =>
  simp only [serialize_type, deserialize_type]
  rw [deserialize_serialize_elems els]
| fn p r =>
  simp only [serialize_type, deserialize_type]
  rw [deserialize_serialize_param p, deserialize_serialize_ty r]

theorem deserialize_serialize_elems (els : TyElems) :
    deserializeElems (serializeElems els) = els := by
cases els with
| nil => rfl
| cons n t rest =>
  simp only [serializeElems, deserializeElems]
  rw [deserialize_serialize_ty t, deserialize_serialize_elems rest]

theorem deserialize_serialize_param (p : OptTy) :
    deserializeParam (serializeParam p) = p := by
cases p with
| noneT => rfl
| someT t =>
  simp only [serializeParam, deserializeParam]
  rw [deserialize_serialize_ty t]

end

theorem shapeAssignableFrom_refl (s : List (Option Nat)) :
    shapeAssignableFrom s s = true := by
induction s with
| nil => rfl
| cons d rest ih =>
  cases d with
  | none => simpa [shapeAssignableFrom, dimAssignableFrom] using ih
  | some n => simpa [shapeAssignableFrom, dimAssignableFrom] using ih

mutual

theorem is_assignable_from_refl (t : Ty) : is_assignable_from t t = true := by
cases t with
| tensor d s =>
  simp [is_assignable_from, shapeAssignableFrom_refl]
| sequence e =>
  simpa [is_assignable_from] using is_assignable_from_refl e
| tuple els =>
  simpa [is_assignable_from] using elemsAssignableFrom_refl els
| fn p r =>
  simp [is_assignable_from, paramAssignableFrom_refl p, is_assignable_from_refl r]

theorem elemsAssignableFrom_refl (els : TyElems) :
    elemsAssignableFrom els els = true := by
cases els with
| nil => simp [elemsAssignableFrom]
| cons n t rest =>
  simp [elemsAssignableFrom, is_assignable_from_refl t, elemsAssignableFrom_refl rest]

theorem paramAssignableFrom_refl (p : OptTy) :
    paramAssignableFrom p p = true := by
cases p with
| noneT => simp [paramAssignableFrom]
| someT t =>
  simpa [paramAssignableFrom] using is_assignable_from_refl t

end

/-- C1: for every constructible Type `t`, `deserialize_type (serialize_type t)`
is structurally equal to `t`, and the round-trip result and `t` are mutually
assignable (`t.is_assignable_from` of the round-trip, and vice versa). -/
theorem C1_serialize_deserialize_roundtrip (t : Ty) :
    deserialize_type (serialize_type t) = t ∧
    is_assignable_from t (deserialize_type (serialize_type t)) = true ∧
    is_assignable_from (deserialize_type (serialize_type t)) t = true := by
have h := deserialize_serialize_ty t
refine ⟨h, ?_, ?_⟩
· rw [h]; exact is_assignable_from_refl t
· rw [h]; exact is_assignable_from_refl t

/-- C7: for every tensor Type, `serialize_type` yields the tensor wire
variant carrying the same dtype and the dimension-size list in which every
known dimension keeps its size and every unknown/undefined dimension is
encoded as `-1`; in particular the test case
`serialize_type (int32, [None])` encodes shape `[-1]`. -/
theorem C7_tensor_serialization (d : DType) (s : List (Option Nat)) :
    serialize_type (Ty.tensor d s) =
      WireTy.tensor d (s.map fun o => Option.elim o (-1) Int.ofNat) ∧
    serialize_type (Ty.tensor DType.DT_INT32 [Option.none]) =
      WireTy.tensor DType.DT_INT32 [-1] := by
constructor
· simp only [serialize_type]
  congr 1
  apply List.map_congr_left
  intro o _
  cases o with
  | none => rfl
  | some n => rfl
· rfl

/-- C8: serializing the zero-argument function returning an empty tuple
`( -> <>)` as a backend (tensorflow) computation yields a `pb.Computation`
whose serialized Type deserializes to `( -> <>)` and whose tensorflow
fragment carries no parameter binding. -/
theorem C8_dummy_empty_tf_computation :
    deserialize_type create_dummy_empty_tensorflow_computation.type =
      Ty.fn OptTy.noneT (Ty.tuple TyElems.nil) ∧
    create_dummy_empty_tensorflow_computation.tensorflow.map
        TensorFlowPb.parameter = Option.some Option.none := by
constructor
· exact deserialize_serialize_ty (Ty.fn OptTy.noneT (Ty.tuple TyElems.nil))
· rfl

/-- C4: `compute` on a wrapped handle delegates to the wrapped target
handle's compute — the returned result and resulting target state are
exactly those of the delegated call — and then appends the single entry
`('compute', handle index, materialized result)` at the end of the
owner's trace, leaving the index counter unchanged. -/
theorem C4_compute_delegates_then_traces {V R T S : Type}
    (tgt : TargetExecutor V R T S) (s : S) (w : TracingState V R)
    (v : TracingValue T) :
    (TracingValue.compute tgt s w v).2.2 = (tgt.compute s v.value).2 ∧
    (TracingValue.compute tgt s w v).1 = (tgt.compute s v.value).1 ∧
    (TracingValue.compute tgt s w v).2.1.trace =
      w.trace ++ [TraceEntry.compute v.index (tgt.compute s v.value).2] ∧
    (TracingValue.compute tgt s w v).2.1.last_used_index =
      w.last_used_index :=
⟨rfl, rfl, rfl, rfl⟩

/-- C9: `create_value` appends the 4-tuple
`('create_value', value, type_spec, out)` when a `type_spec` is supplied
and the 3-tuple `('create_value', value, out)` when it is omitted; the
omitted type never appears in the entry. -/
theorem C9_create_value_trace_entry {V R T S : Type}
    (tgt : TargetExecutor V R T S) (s : S) (w : TracingState V R)
    (value : V) :
    (∀ ts : Ty,
      (TracingExecutor.create_value tgt s w value (Option.some ts)).2.1.trace =
        w.trace ++
          [TraceEntry.create_value_typed value ts (w.last_used_index + 1)]) ∧
    (TracingExecutor.create_value tgt s w value Option.none).2.1.trace =
      w.trace ++
        [TraceEntry.create_value_untyped value (w.last_used_index + 1)] :=
⟨fun _ => rfl, rfl⟩

/-- C10: `close` on the tracing executor delegates to the wrapped target
executor and leaves the wrapper's own state unchanged — no trace entry is
appended and the last-used index counter is not advanced. -/
theorem C10_close_frame {V R T S : Type} (tgt : TargetExecutor V R T S)
    (s : S) (w : TracingState V R) :
    TracingExecutor.close tgt s w = (tgt.close s, w) ∧
    (TracingExecutor.close tgt s w).2.trace = w.trace ∧
    (TracingExecutor.close tgt s w).2.last_used_index = w.last_used_index :=
⟨rfl, rfl, rfl⟩

theorem resolveElems_indices {T : Type} (env : List (TracingValue T))
    (hidx : ∀ j : Nat, ∀ tv : TracingValue T,
      env[j]? = Option.some tv → tv.index = j + 1)
    (els : List (Option String × Nat)) :
    ∀ rs : List (Option String × TracingValue T),
      resolveElems env els = Option.some rs →
      rs.map (fun p => (p.1, p.2.index)) = els.map (fun p => (p.1, p.2 + 1)) := by
induction els with
| nil =>
  intro rs h
  simp only [resolveElems, Option.some.injEq] at h
  subst h
  rfl
| cons p rest ih =>
  intro rs h
  simp only [resolveElems] at h
  cases henv : env[p.2]? with
  | none => rw [henv] at h; simp at h
  | some tv =>
    rw [henv] at h
    cases hrest : resolveElems env rest with
    | none => rw [hrest] at h; simp at h
    | some rs2 =>
      rw [hrest] at h
      simp only [Option.some.injEq] at h
      subst h
      simp [ih rs2 hrest, hidx p.2 tv henv]

theorem step_spec {V R T S : Type} (tgt : TargetExecutor V R T S) (s : S)
    (w : TracingState V R) (env : List (TracingValue T)) (op : OpDescr V)
    (s2 : S) (w2 : TracingState V R) (tv : TracingValue T)
    (hg : GoodEnv w env)
    (h : step tgt s w env op = Option.some (s2, w2, tv)) :
    w2.trace = w.trace ++ [expectedEntry op (env.length + 1)] ∧
    w2.last_used_index = env.length + 1 ∧
    tv.index = env.length + 1 := by
obtain ⟨hlen, hidx⟩ := hg
cases op with
| opValue v ts =>
  cases ts with
  | none =>
    simp only [step, TracingExecutor.create_value, get_new_value_index,
      Option.some.injEq, Prod.mk.injEq] at h
    obtain ⟨h1, h2, h3⟩ := h
    subst h2; subst h3
    simp [expectedEntry, hlen]
  | some t =>
    simp only [step, TracingExecutor.create_value, get_new_value_index,
      Option.some.injEq, Prod.mk.injEq] at h
    obtain ⟨h1, h2, h3⟩ := h
    subst h2; subst h3
    simp [expectedEntry, hlen]
| opCall c a =>
  cases a with
  | none =>
    cases hc : env[c]? with
    | none => simp [step, hc] at h
    | some cv =>
      simp only [step, hc, TracingExecutor.create_call, get_new_value_index,
        Option.some.injEq, Prod.mk.injEq] at h
      obtain ⟨h1, h2, h3⟩ := h
      subst h2; subst h3
      simp [expectedEntry, hlen, hidx c cv hc]
  | some j =>
    cases hc : env[c]? with
    | none => simp [step, hc] at h
    | some cv =>
      cases ha : env[j]? with
      | none => simp [step, hc, ha] at h
      | some av =>
        simp only [step, hc, ha, TracingExecutor.create_call,
          get_new_value_index, Option.some.injEq, Prod.mk.injEq] at h
        obtain ⟨h1, h2, h3⟩ := h
        subst h2; subst h3
        simp [expectedEntry, hlen, hidx c cv hc, hidx j av ha]
| opTuple els =>
  cases hres : resolveElems env els with
  | none => simp [step, hres] at h
  | some rs =>
    simp only [step, hres, TracingExecutor.create_tuple, get_new_value_index,
      Option.some.injEq, Prod.mk.injEq] at h
    obtain ⟨h1, h2, h3⟩ := h
    subst h2; subst h3
    simp [expectedEntry, hlen, resolveElems_indices env hidx els rs hres]
| opSelection src i n =>
  cases hc : env[src]? with
  | none => simp [step, hc] at h
  | some sv =>
    simp only [step, hc, TracingExecutor.create_selection,
      get_new_value_index, Option.some.injEq, Prod.mk.injEq] at h
    obtain ⟨h1, h2, h3⟩ := h
    subst h2; subst h3
    simp [expectedEntry, hlen, hidx src sv hc]

theorem goodEnv_extend {V R T : Type} (w w2 : TracingState V R)
    (env : List (TracingValue T)) (tv : TracingValue T)
    (hg : GoodEnv w env) (hlast : w2.last_used_index = env.length + 1)
    (hidx : tv.index = env.length + 1) : GoodEnv w2 (env ++ [tv]) := by
constructor
· simp [hlast]
· intro j tv2 hj
  rcases Nat.lt_trichotomy j env.length with hlt | heq | hgt
  · rw [List.getElem?_append_left hlt] at hj
    exact hg.2 j tv2 hj
  · subst heq
    rw [List.getElem?_concat_length] at hj
    injection hj with hj2
    subst hj2
    exact hidx
  · have hnone : (env ++ [tv])[j]? = Option.none := by
      apply List.getElem?_eq_none
      simp only [List.length_append, List.length_cons, List.length_nil]
      omega
    rw [hnone] at hj
    simp at hj

theorem runOps_spec {V R T S : Type} (tgt : TargetExecutor V R T S)
    (ops : List (OpDescr V)) :
    ∀ (s : S) (w : TracingState V R) (env : List (TracingValue T))
      (s2 : S) (w2 : TracingState V R) (env2 : List (TracingValue T)),
      GoodEnv w env →
      runOps tgt ops s w env = Option.some (s2, w2, env2) →
      w2.trace = w.trace ++ entriesFrom env.length ops ∧
      GoodEnv w2 env2 ∧ env2.length = env.length + ops.length := by
induction ops with
| nil =>
  intro s w env s2 w2 env2 hg h
  simp only [runOps, Option.some.injEq, Prod.mk.injEq] at h
  obtain ⟨h1, h2, h3⟩ := h
  subst h2; subst h3
  exact ⟨by simp [entriesFrom], hg, by simp⟩
| cons op ops ih =>
  intro s w env s2 w2 env2 hg h
  simp only [runOps] at h
  cases hst : step tgt s w env op with
  | none => rw [hst] at h; simp at h
  | some r =>
    obtain ⟨sm, wm, tv⟩ := r
    rw [hst] at h
    simp only at h
    obtain ⟨htr, hlast, hidx⟩ := step_spec tgt s w env op sm wm tv hg hst
    have hg2 : GoodEnv wm (env ++ [tv]) :=
      goodEnv_extend w wm env tv hg hlast hidx
    obtain ⟨htr2, hg3, hlen2⟩ := ih sm wm (env ++ [tv]) s2 w2 env2 hg2 h
    refine ⟨?_, hg3, ?_⟩
    · rw [htr2, htr, List.append_assoc]
      congr 1
      simp [entriesFrom]
    · simp only [hlen2, List.length_append, List.length_cons,
        List.length_nil]
      omega

theorem goodEnv_map_index {V R T : Type} (w : TracingState V R)
    (env : List (TracingValue T)) (hg : GoodEnv w env) :
    env.map TracingValue.index = List.range' 1 env.length := by
apply List.ext_getElem?
intro n
rw [List.getElem?_map]
rcases Nat.lt_or_ge n env.length with hlt | hge
· cases henv : env[n]? with
  | none =>
    rw [List.getElem?_eq_none_iff] at henv
    omega
  | some tv =>
    rw [List.getElem?_range' 1 1 hlt]
    simp only [Option.map_some']
    rw [hg.2 n tv henv]
    congr 1
    omega
· rw [List.getElem?_eq_none hge]
  rw [List.getElem?_eq_none (by simpa using hge)]
  rfl

/-- C2: for every sequence of successful operations issued through a
tracing executor starting from its initial state, the output indices of
the produced wrapped handles are exactly `1, 2, ..., n` — strictly
increasing, never repeated, and starting at 1 for the first operation. -/
theorem C2_output_indices {V R T S : Type} (tgt : TargetExecutor V R T S)
    (ops : List (OpDescr V)) (s : S) (s2 : S) (w2 : TracingState V R)
    (env2 : List (TracingValue T))
    (h : runOps tgt ops s (TracingState.initial V R) [] =
      Option.some (s2, w2, env2)) :
    env2.map TracingValue.index = List.range' 1 ops.length ∧
    List.Pairwise (fun a b => a < b) (env2.map TracingValue.index) ∧
    (ops ≠ [] →
      (env2.map TracingValue.index).head? = Option.some 1) := by
have hg0 : GoodEnv (TracingState.initial V R) ([] : List (TracingValue T)) := by
  refine ⟨rfl, ?_⟩
  intro j tv hj
  simp at hj
obtain ⟨-, hg2, hlen⟩ :=
  runOps_spec tgt ops s (TracingState.initial V R) [] s2 w2 env2 hg0 h
have hmap := goodEnv_map_index w2 env2 hg2
simp only [List.length_nil, Nat.zero_add] at hlen
rw [hlen] at hmap
refine ⟨hmap, ?_, ?_⟩
· rw [hmap]
  exact List.pairwise_lt_range' 1 ops.length
· intro hne
  rw [hmap]
  cases ops with
  | nil => exact absurd rfl hne
  | cons o rest =>
    simp only [List.length_cons]
    rw [List.range'_succ]
    rfl

theorem C2_output_indices_witness :
    ([(⟨1, 0⟩ : TracingValue Nat)].map TracingValue.index =
      List.range' 1 ([OpDescr.opValue 7 Option.none] : List (OpDescr Nat)).length) ∧
    List.Pairwise (fun a b => a < b)
      ([(⟨1, 0⟩ : TracingValue Nat)].map TracingValue.index) ∧
    (([OpDescr.opValue 7 Option.none] : List (OpDescr Nat)) ≠ [] →
      ([(⟨1, 0⟩ : TracingValue Nat)].map TracingValue.index).head? =
        Option.some 1) :=
C2_output_indices dummyTarget [OpDescr.opValue 7 Option.none] 0 1
  ⟨1, [TraceEntry.create_value_untyped 7 1]⟩ [⟨1, 0⟩] rfl

theorem entriesFrom_length {V R : Type} (base : Nat)
    (ops : List (OpDescr V)) :
    (entriesFrom base ops : List (TraceEntry V R)).length = ops.length := by
induction ops generalizing base with
| nil => rfl
| cons op rest ih => simp [entriesFrom, ih]

/-- C3: for every sequence of successful operations issued through a
tracing executor starting from its initial state, the trace is the exact,
order-preserving record of the operations: each operation appends exactly
one entry, in issue order, recording the operation tag, the indices of its
input handles (or the literal value and optional type for `create_value`),
and the output index. -/
theorem C3_trace_exact_record {V R T S : Type} (tgt : TargetExecutor V R T S)
    (ops : List (OpDescr V)) (s : S) (s2 : S) (w2 : TracingState V R)
    (env2 : List (TracingValue T))
    (h : runOps tgt ops s (TracingState.initial V R) [] =
      Option.some (s2, w2, env2)) :
    w2.trace = entriesFrom 0 ops ∧ w2.trace.length = ops.length := by
have hg0 : GoodEnv (TracingState.initial V R) ([] : List (TracingValue T)) := by
  refine ⟨rfl, ?_⟩
  intro j tv hj
  simp at hj
obtain ⟨htr, -, -⟩ :=
  runOps_spec tgt ops s (TracingState.initial V R) [] s2 w2 env2 hg0 h
have htr2 : w2.trace = entriesFrom 0 ops := by simpa using htr
exact ⟨htr2, by rw [htr2]; exact entriesFrom_length 0 ops⟩

theorem C3_trace_exact_record_witness :
    (([TraceEntry.create_value_typed 5 (Ty.tensor DType.DT_BOOL []) 1] :
        List (TraceEntry Nat Nat)) =
      entriesFrom 0
        [OpDescr.opValue 5 (Option.some (Ty.tensor DType.DT_BOOL []))]) ∧
    (([TraceEntry.create_value_typed 5 (Ty.tensor DType.DT_BOOL []) 1] :
        List (TraceEntry Nat Nat)).length =
      ([OpDescr.opValue 5 (Option.some (Ty.tensor DType.DT_BOOL []))] :
        List (OpDescr Nat)).length) :=
C3_trace_exact_record dummyTarget
  [OpDescr.opValue 5 (Option.some (Ty.tensor DType.DT_BOOL []))] 0 1
  ⟨1, [TraceEntry.create_value_typed 5 (Ty.tensor DType.DT_BOOL []) 1]⟩
  [⟨1, 0⟩] rfl

/-- C5: on an open executor, `create_selection` fails with
`SelectionError` when both `index` and `name` are given, when neither is
given, when the given index is out of range for the tuple-typed source,
and when the given name does not exist in the tuple-typed source. -/
theorem C5_selection_errors (s : SpecExecutorState) (source : Nat)
    (hopen : s.closed = false) :
    (∀ (i : Nat) (n : String),
      spec_create_selection s source (Option.some i) (Option.some n) =
        Except.error ExecError.SelectionError) ∧
    (spec_create_selection s source Option.none Option.none =
      Except.error ExecError.SelectionError) ∧
    (∀ (elems : List (Option String × Nat)) (i : Nat),
      s.store[source]? = Option.some (EVal.tupleV elems) →
      elems.length ≤ i →
      spec_create_selection s source (Option.some i) Option.none =
        Except.error ExecError.SelectionError) ∧
    (∀ (elems : List (Option String × Nat)) (n : String),
      s.store[source]? = Option.some (EVal.tupleV elems) →
      (∀ p ∈ elems, p.1 ≠ Option.some n) →
      spec_create_selection s source Option.none (Option.some n) =
        Except.error ExecError.SelectionError) := by
refine ⟨?_, ?_, ?_, ?_⟩
· intro i n
  simp [spec_create_selection, hopen]
· simp [spec_create_selection, hopen]
· intro elems i hsrc hge
  have hnone : elems[i]? = Option.none := List.getElem?_eq_none hge
  simp [spec_create_selection, hopen, hsrc, hnone]
· intro elems n hsrc hname
  have hfind : elems.find? (fun p => p.1 == Option.some n) = Option.none := by
    rw [List.find?_eq_none]
    intro p hp
    simpa using hname p hp
  simp [spec_create_selection, hopen, hsrc, findByName, hfind]

theorem C5_selection_errors_witness :
    (spec_create_selection ⟨false, [EVal.tupleV [(Option.some "x", 0)]]⟩ 0
        (Option.some 0) (Option.some "x") =
      Except.error ExecError.SelectionError) ∧
    (spec_create_selection ⟨false, [EVal.tupleV [(Option.some "x", 0)]]⟩ 0
        Option.none Option.none =
      Except.error ExecError.SelectionError) ∧
    (spec_create_selection ⟨false, [EVal.tupleV [(Option.some "x", 0)]]⟩ 0
        (Option.some 5) Option.none =
      Except.error ExecError.SelectionError) ∧
    (spec_create_selection ⟨false, [EVal.tupleV [(Option.some "x", 0)]]⟩ 0
        Option.none (Option.some "y") =
      Except.error ExecError.SelectionError) := by
have h := C5_selection_errors
  ⟨false, [EVal.tupleV [(Option.some "x", 0)]]⟩ 0 rfl
exact ⟨h.1 0 "x", h.2.1,
  h.2.2.1 [(Option.some "x", 0)] 5 rfl (by decide),
  h.2.2.2 [(Option.some "x", 0)] "y" rfl (by decide)⟩

/-- C6: every operation invoked after `close` — `create_value`,
`create_call`, `create_tuple`, `create_selection`, `compute` — fails with
`ClosedExecutorError`, and `close` is idempotent: a second call does not
fail and changes nothing. -/
theorem C6_closed_executor (s : SpecExecutorState) :
    (∀ (v : EVal) (ts : Option Ty),
      spec_create_value (spec_close s) v ts =
        Except.error ExecError.ClosedExecutorError) ∧
    (∀ (fn : Nat) (arg : Option Nat),
      spec_create_call (spec_close s) fn arg =
        Except.error ExecError.ClosedExecutorError) ∧
    (∀ els : List (Option String × Nat),
      spec_create_tuple (spec_close s) els =
        Except.error ExecError.ClosedExecutorError) ∧
    (∀ (src : Nat) (i : Option Nat) (n : Option String),
      spec_create_selection (spec_close s) src i n =
        Except.error ExecError.ClosedExecutorError) ∧
    (∀ h : Nat,
      spec_compute (spec_close s) h =
        Except.error ExecError.ClosedExecutorError) ∧
    spec_close (spec_close s) = spec_close s := by
refine ⟨?_, ?_, ?_, ?_, ?_, rfl⟩
· intro v ts
  simp [spec_close, spec_create_value]
· intro fn arg
  simp [spec_close, spec_create_call]
· intro els
  simp [spec_close, spec_create_tuple]
· intro src i n
  simp [spec_close, spec_create_selection]
· intro h
  simp [spec_close, spec_compute]
